import Mathlib

/-!
Verification of the download planner in src/main.rs (project linspm).

The planner is the function FileInfo::new, which reads three response
headers (content-length, content-type, accept-ranges) and partitions the
resource of length len into byte-range blocks for thread-parallel download.
We embed the function shallowly: u64 arithmetic stays in Nat (every value
computed is bounded by len < 2^64, so no wraparound can occur), and a Rust
panic (unwrap on a missing or unparsable header, or an integer division by
zero) is modelled by returning none.
-/

set_option maxHeartbeats 1000000

/-- Header map of the metadata probe, restricted to the three headers that
FileInfo::new reads. -/
structure Headers where
  contentLength : Option String
  contentType : Option String
  acceptRanges : Option String
deriving DecidableEq

/-- Rust u64 parsing as used by parse::<u64>(): an optional leading plus
sign followed by one or more ASCII digits, with the value required to fit
in 64 bits. -/
def parseU64 (s : String) : Option Nat :=
  let cs := s.data
  let ds := if cs.head? = some '+' then cs.tail else cs
  if ds.isEmpty then none
  else if ds.all Char.isDigit then
    let v := ds.foldl (fun a c => a * 10 + (c.toNat - 48)) 0
    if v < 2 ^ 64 then some v else none
  else none

/-- The file-type enum of the source. -/
inductive FileType
  | Mp4
  | Jpeg
  | Png
  | Ogg
  | Unknow
deriving DecidableEq

/-- The Display impl for FileType: the suffix string each variant prints
(the catch-all arm prints the empty string). -/
def FileType.toString : FileType → String
  | .Png => "png"
  | .Jpeg => "jpg"
  | .Mp4 => "mp4"
  | .Ogg => "ogg"
  | .Unknow => ""

/-- The content-type match inside FileInfo::new (the commented-out arms of
the source are omitted, as the compiler does). -/
def fileTypeOf : Option String → FileType
  | none => FileType.Unknow
  | some t =>
    if t = "video/mp4" then FileType.Png
    else if t = "application/ogg" then FileType.Ogg
    else if t = "image/jpeg" then FileType.Jpeg
    else if t = "image/png" then FileType.Png
    else FileType.Unknow

/-- One contiguous byte range of the resource, with inclusive bounds. -/
structure Block where
  id : Nat
  start : Nat
  «end» : Nat
  is_done : Bool
deriving DecidableEq

/-- Block::new. -/
def Block.new (id start «end» : Nat) : Block :=
  { id := id, start := start, «end» := «end», is_done := false }

/-- The plan record built by FileInfo::new. -/
structure FileInfo where
  uri : String
  len : Nat
  suffix : String
  save_as : String
  flag_range : Bool
  thread : Nat
  blocks : List Block
  blocks_count : Nat
  block_offset : Nat
  block_offset_head : Nat
  has_write : Nat
deriving DecidableEq

/-- The for-loop of FileInfo::new: n more iterations to run, with the
mutable variables id and end threaded through (start is recomputed as
end + 1 on every iteration, exactly as in the source). -/
def blockLoop (off : Nat) : Nat → Nat → Nat → List Block → List Block
  | 0, _, _, blocks => blocks
  | n + 1, id, e, blocks =>
    blockLoop off n (id + 1) (e + off) (blocks ++ [Block.new (id + 1) (e + 1) (e + off)])

/-- FileInfo::new. Returns none exactly where the Rust code panics: a
missing content-length header, a content-length that does not parse as
u64, thread = 0 (len / thread divides by zero), or len / thread = 0
(len % block_offset divides by zero, which happens whenever len < thread,
in particular for len = 0). -/
def FileInfo.new (headers : Headers) (uri : String) (save_as : String) (thread : Nat) :
    Option FileInfo :=
  match headers.contentLength with
  | none => none
  | some raw =>
    match parseU64 raw with
    | none => none
    | some len =>
      if thread = 0 then none
      else
        let block_offset := len / thread
        if block_offset = 0 then none
        else
          let block_offset_head := len % block_offset
          let blocks_count := len / block_offset + 1
          let file_type := fileTypeOf headers.contentType
          let blocks := blockLoop block_offset (blocks_count - 1) 0 block_offset_head
            [{ id := 0, start := 0, «end» := block_offset_head, is_done := false }]
          some {
            uri := uri
            len := len
            suffix := file_type.toString
            save_as := save_as ++ "." ++ file_type.toString
            flag_range := match headers.acceptRanges with
              | none => false
              | some v => v == "bytes"
            thread := thread
            blocks := blocks
            blocks_count := blocks_count
            block_offset := block_offset
            block_offset_head := block_offset_head
            has_write := 0
          }

/-- Whether byte position x falls inside some block of the list
(inclusive bounds on both sides). -/
def covered (bs : List Block) (x : Nat) : Bool :=
  bs.any fun b => decide (b.start ≤ x ∧ x ≤ b.«end»)

/-- Closed form of the block list the loop builds: the head block
[0, head] followed by n blocks of off bytes each. -/
def expectedBlocks (head off n : Nat) : List Block :=
  { id := 0, start := 0, «end» := head, is_done := false } ::
    (List.range n).map fun f =>
      { id := f + 1, start := head + f * off + 1, «end» := head + (f + 1) * off,
        is_done := false }

example : parseU64 "1000" = some 1000 := by decide
example : parseU64 "" = none := by decide
example : parseU64 "12a" = none := by decide
example :
    (FileInfo.new ⟨some "1000", none, none⟩ "u" "w" 4).map (fun i => i.blocks) =
      some (expectedBlocks 0 250 4) := by decide

lemma blockLoop_eq (off : Nat) :
    ∀ (n id e : Nat) (acc : List Block),
      blockLoop off n id e acc =
        acc ++ (List.range n).map fun f =>
          Block.new (id + 1 + f) (e + f * off + 1) (e + (f + 1) * off) := by
  intro n
  induction n with
  | zero => intro id e acc; simp [blockLoop]
  | succ n ih =>
    intro id e acc
    rw [blockLoop, ih, List.range_succ_eq_map, List.map_cons, List.map_map,
      List.append_assoc, List.singleton_append]
    congr 1
    congr 1
    · simp [Block.new]
    · refine List.map_congr_left fun f _ => ?_
      show Block.new (id + 1 + 1 + f) (e + off + f * off + 1) (e + off + (f + 1) * off) =
        Block.new (id + 1 + (f + 1)) (e + (f + 1) * off + 1) (e + (f + 1 + 1) * off)
      rw [show id + 1 + 1 + f = id + 1 + (f + 1) by omega,
        show e + off + f * off + 1 = e + (f + 1) * off + 1 by ring,
        show e + off + (f + 1) * off = e + (f + 1 + 1) * off by ring]

lemma expectedBlocks_length (head off n : Nat) :
    (expectedBlocks head off n).length = n + 1 := by
  simp [expectedBlocks]

lemma expectedBlocks_get (head off n i : Nat)
    (hi : i < (expectedBlocks head off n).length) :
    (expectedBlocks head off n).get ⟨i, hi⟩ =
      { id := i, start := if i = 0 then 0 else head + (i - 1) * off + 1,
        «end» := head + i * off, is_done := false } := by
  cases i with
  | zero => simp [expectedBlocks]
  | succ i =>
    have hi' : i < n := by
      have := hi
      simp [expectedBlocks_length] at this
      omega
    simp [expectedBlocks, List.get_eq_getElem, List.getElem_cons_succ,
      List.getElem_map, List.getElem_range, hi']

lemma blockList_eq (head off n : Nat) :
    [({ id := 0, start := 0, «end» := head, is_done := false } : Block)] ++
        (List.range n).map
          (fun f => Block.new (0 + 1 + f) (head + f * off + 1) (head + (f + 1) * off)) =
      expectedBlocks head off n := by
  simp only [List.singleton_append, expectedBlocks]
  congr 1
  refine List.map_congr_left fun f _ => ?_
  simp only [Block.new, Block.mk.injEq, and_true, true_and]
  omega

/-- Characterization of a successful run of FileInfo::new: when the
content-length parses to len, thread is positive and len is at least
thread (so both divisions have nonzero divisors), the plan is built and
its block list has the closed form. -/
lemma new_char (s : String) (len : Nat) (ct ar : Option String) (uri sv : String)
    (thread : Nat) (hs : parseU64 s = some len) (ht : 0 < thread) (hlt : thread ≤ len) :
    FileInfo.new ⟨some s, ct, ar⟩ uri sv thread =
      some { uri := uri, len := len, suffix := (fileTypeOf ct).toString,
             save_as := sv ++ "." ++ (fileTypeOf ct).toString,
             flag_range := (match ar with | none => false | some v => v == "bytes"),
             thread := thread,
             blocks := expectedBlocks (len % (len / thread)) (len / thread)
               (len / (len / thread)),
             blocks_count := len / (len / thread) + 1,
             block_offset := len / thread,
             block_offset_head := len % (len / thread),
             has_write := 0 } := by
  have hoff : 0 < len / thread := (Nat.one_le_div_iff ht).mpr hlt
  have ht' : ¬ thread = 0 := Nat.pos_iff_ne_zero.mp ht
  have hoff' : ¬ len / thread = 0 := Nat.pos_iff_ne_zero.mp hoff
  unfold FileInfo.new
  simp only [hs]
  rw [if_neg ht', if_neg hoff', Nat.add_sub_cancel, blockLoop_eq, blockList_eq]

lemma covered_append (bs cs : List Block) (x : Nat) :
    covered (bs ++ cs) x = (covered bs x || covered cs x) := by
  simp [covered, List.any_append]

lemma expectedBlocks_snoc (head off n : Nat) :
    expectedBlocks head off (n + 1) =
      expectedBlocks head off n ++
        [{ id := n + 1, start := head + n * off + 1, «end» := head + (n + 1) * off,
           is_done := false }] := by
  simp [expectedBlocks, List.range_succ]

lemma covered_expectedBlocks (head off n x : Nat) :
    covered (expectedBlocks head off n) x = true ↔ x ≤ head + n * off := by
  induction n with
  | zero => simp [expectedBlocks, covered]
  | succ n ih =>
    rw [expectedBlocks_snoc, covered_append,
      show (n + 1) * off = n * off + off from by ring, Bool.or_eq_true, ih]
    have hsingle :
        covered [Block.mk (n + 1) (head + n * off + 1) (head + (n * off + off)) false] x =
            true ↔
          head + n * off + 1 ≤ x ∧ x ≤ head + (n * off + off) := by
      simp [covered]
    rw [hsingle]
    omega

lemma expectedBlocks_end_lt_start (head off n i j : Nat)
    (hi : i < (expectedBlocks head off n).length)
    (hj : j < (expectedBlocks head off n).length) (hij : i < j) :
    ((expectedBlocks head off n).get ⟨i, hi⟩).«end» <
      ((expectedBlocks head off n).get ⟨j, hj⟩).start := by
  rw [expectedBlocks_get, expectedBlocks_get]
  show head + i * off < if j = 0 then 0 else head + (j - 1) * off + 1
  rw [if_neg (by omega : ¬ j = 0)]
  have hmul : i * off ≤ (j - 1) * off := Nat.mul_le_mul_right off (by omega)
  exact Nat.lt_succ_of_le (Nat.add_le_add_left hmul head)

lemma expectedBlocks_disjoint (head off n i j : Nat)
    (hi : i < (expectedBlocks head off n).length)
    (hj : j < (expectedBlocks head off n).length) (hij : i ≠ j) (x : Nat) :
    ¬ (((expectedBlocks head off n).get ⟨i, hi⟩).start ≤ x ∧
       x ≤ ((expectedBlocks head off n).get ⟨i, hi⟩).«end» ∧
       ((expectedBlocks head off n).get ⟨j, hj⟩).start ≤ x ∧
       x ≤ ((expectedBlocks head off n).get ⟨j, hj⟩).«end») := by
  rintro ⟨h1, h2, h3, h4⟩
  rcases Nat.lt_or_ge i j with hl | hg
  · have h5 := expectedBlocks_end_lt_start head off n i j hi hj hl
    omega
  · have hji : j < i := by omega
    have h5 := expectedBlocks_end_lt_start head off n j i hj hi hji
    omega

lemma expectedBlocks_head_fields (head off n : Nat)
    (h0 : 0 < (expectedBlocks head off n).length) :
    ((expectedBlocks head off n).get ⟨0, h0⟩).start = 0 ∧
    ((expectedBlocks head off n).get ⟨0, h0⟩).«end» = head := by
  rw [expectedBlocks_get]
  constructor <;> simp

lemma expectedBlocks_id (head off n i : Nat)
    (hi : i < (expectedBlocks head off n).length) :
    ((expectedBlocks head off n).get ⟨i, hi⟩).id = i := by
  rw [expectedBlocks_get]

lemma expectedBlocks_size (head off n i : Nat)
    (hi : i < (expectedBlocks head off n).length) (h1 : 1 ≤ i) :
    ((expectedBlocks head off n).get ⟨i, hi⟩).«end» + 1 =
      ((expectedBlocks head off n).get ⟨i, hi⟩).start + off := by
  obtain ⟨k, rfl⟩ : ∃ k, i = k + 1 := ⟨i - 1, by omega⟩
  rw [expectedBlocks_get]
  show head + (k + 1) * off + 1 =
    (if k + 1 = 0 then 0 else head + (k + 1 - 1) * off + 1) + off
  rw [if_neg (Nat.succ_ne_zero k), Nat.add_sub_cancel]
  ring

lemma expectedBlocks_contig (head off n i : Nat)
    (hi : i + 1 < (expectedBlocks head off n).length) :
    ((expectedBlocks head off n).get ⟨i + 1, hi⟩).start =
      ((expectedBlocks head off n).get ⟨i, Nat.lt_of_succ_lt hi⟩).«end» + 1 := by
  rw [expectedBlocks_get, expectedBlocks_get]
  show (if i + 1 = 0 then 0 else head + (i + 1 - 1) * off + 1) = head + i * off + 1
  rw [if_neg (Nat.succ_ne_zero i), Nat.add_sub_cancel]

lemma expectedBlocks_getLast (head off n : Nat)
    (hne : expectedBlocks head off n ≠ []) :
    ((expectedBlocks head off n).getLast hne).«end» = head + n * off := by
  have hlt : (expectedBlocks head off n).length - 1 < (expectedBlocks head off n).length := by
    rw [expectedBlocks_length]; omega
  rw [List.getLast_eq_getElem,
    show (expectedBlocks head off n)[(expectedBlocks head off n).length - 1] =
      (expectedBlocks head off n).get ⟨(expectedBlocks head off n).length - 1, hlt⟩ from rfl,
    expectedBlocks_get]
  show head + ((expectedBlocks head off n).length - 1) * off = head + n * off
  rw [expectedBlocks_length, Nat.add_sub_cancel]

/-- The plan FileInfo::new computes for content-length 4, an
accept-ranges value of bytes, and thread = 2. -/
def sampleInfo : FileInfo :=
  { uri := "u", len := 4, suffix := "", save_as := "w.", flag_range := true, thread := 2,
    blocks := [Block.mk 0 0 0 false, Block.mk 1 1 2 false, Block.mk 2 3 4 false],
    blocks_count := 3, block_offset := 2, block_offset_head := 0, has_write := 0 }

/-- The plan FileInfo::new computes for content-length 4 and thread = 1. -/
def sampleInfoOne : FileInfo :=
  { uri := "u", len := 4, suffix := "", save_as := "w.", flag_range := false, thread := 1,
    blocks := [Block.mk 0 0 0 false, Block.mk 1 1 4 false],
    blocks_count := 2, block_offset := 4, block_offset_head := 0, has_write := 0 }

example : FileInfo.new ⟨some "4", none, some "bytes"⟩ "u" "w" 2 = some sampleInfo := by
  decide
example : FileInfo.new ⟨some "4", none, none⟩ "u" "w" 1 = some sampleInfoOne := by decide

/-- C1 counterexample: for totalLength 4 and parallelism 2, a valid
input, byte position 4 is covered by a block although the claimed union
[0, totalLength - 1] = [0, 3] does not contain it. -/
theorem C1_counterexample :
    (FileInfo.new ⟨some "4", none, none⟩ "u" "w" 2).map (fun i => covered i.blocks 4) =
        some true ∧
      ¬ (4 ≤ 4 - 1) := by decide

/-- C1 (amended): for every valid input (content-length parsing to len,
1 <= thread <= len, so baseBlockSize >= 1), the blocks built by
FileInfo::new are pairwise disjoint and their inclusive ranges cover,
with no gap and no overlap, exactly the byte positions 0..len — one
position more than the interval [0, len - 1] stated by the claim. -/
theorem C1_blocks_disjoint_cover_upto_len (s : String) (len : Nat) (ct ar : Option String)
    (uri sv : String) (thread : Nat) (info : FileInfo)
    (hs : parseU64 s = some len) (ht : 0 < thread) (hlt : thread ≤ len)
    (hnew : FileInfo.new ⟨some s, ct, ar⟩ uri sv thread = some info) :
    (∀ (i j : Nat) (hi : i < info.blocks.length) (hj : j < info.blocks.length), i ≠ j →
      ∀ x : Nat, ¬ ((info.blocks.get ⟨i, hi⟩).start ≤ x ∧
        x ≤ (info.blocks.get ⟨i, hi⟩).«end» ∧
        (info.blocks.get ⟨j, hj⟩).start ≤ x ∧ x ≤ (info.blocks.get ⟨j, hj⟩).«end»)) ∧
    (∀ x : Nat, covered info.blocks x = true ↔ x ≤ len) := by
  have h := Option.some.inj ((new_char s len ct ar uri sv thread hs ht hlt).symm.trans hnew)
  subst h
  refine ⟨fun i j hi hj hij x => expectedBlocks_disjoint _ _ _ i j hi hj hij x, fun x => ?_⟩
  have hc := covered_expectedBlocks (len % (len / thread)) (len / thread)
    (len / (len / thread)) x
  rw [Nat.mod_add_div'] at hc
  exact hc

/-- C1 witness: for the concrete plan of totalLength 4, parallelism 2,
byte 4 is covered (the union reaches len, not len - 1). -/
theorem C1_witness : covered sampleInfo.blocks 4 = true ↔ 4 ≤ 4 :=
  (C1_blocks_disjoint_cover_upto_len "4" 4 none (some "bytes") "u" "w" 2 sampleInfo
    (by decide) (by decide) (by decide) (by decide)).2 4

/-- C2 (confirmed): FileInfo::new computes the partition exactly by the
stated algorithm: baseBlockSize = len / thread, remainderSize = len %
baseBlockSize (modulus against the block size), blockCount = len /
baseBlockSize + 1; block 0 covers [0, remainderSize]; every later block
covers exactly baseBlockSize positions and the blocks are contiguous
immediately after block 0. -/
theorem C2_partition_algorithm (s : String) (len : Nat) (ct ar : Option String)
    (uri sv : String) (thread : Nat) (info : FileInfo)
    (hs : parseU64 s = some len) (ht : 0 < thread) (hlt : thread ≤ len)
    (hnew : FileInfo.new ⟨some s, ct, ar⟩ uri sv thread = some info) :
    info.block_offset = len / thread ∧
    info.block_offset_head = len % info.block_offset ∧
    info.blocks_count = len / info.block_offset + 1 ∧
    info.blocks.length = info.blocks_count ∧
    (∀ h0 : 0 < info.blocks.length,
      (info.blocks.get ⟨0, h0⟩).start = 0 ∧
      (info.blocks.get ⟨0, h0⟩).«end» = info.block_offset_head) ∧
    (∀ (i : Nat) (hi : i < info.blocks.length), 1 ≤ i →
      (info.blocks.get ⟨i, hi⟩).«end» + 1 =
        (info.blocks.get ⟨i, hi⟩).start + info.block_offset) ∧
    (∀ (i : Nat) (hi : i + 1 < info.blocks.length),
      (info.blocks.get ⟨i + 1, hi⟩).start =
        (info.blocks.get ⟨i, Nat.lt_of_succ_lt hi⟩).«end» + 1) := by
  have h := Option.some.inj ((new_char s len ct ar uri sv thread hs ht hlt).symm.trans hnew)
  subst h
  exact ⟨rfl, rfl, rfl, expectedBlocks_length _ _ _,
    fun h0 => expectedBlocks_head_fields _ _ _ h0,
    fun i hi h1 => expectedBlocks_size _ _ _ i hi h1,
    fun i hi => expectedBlocks_contig _ _ _ i hi⟩

/-- C2 witness: the base block size of the concrete plan for
totalLength 4, parallelism 2. -/
theorem C2_witness : sampleInfo.block_offset = 4 / 2 :=
  (C2_partition_algorithm "4" 4 none (some "bytes") "u" "w" 2 sampleInfo (by decide)
    (by decide) (by decide) (by decide)).1

/-- C3 (confirmed): the golden test — totalLength 1000 and parallelism 4
give baseBlockSize 250, remainderSize 0, block 0 = [0, 0] and blocks 1..4
= [1, 250], [251, 500], [501, 750], [751, 1000]. -/
theorem C3_golden_1000_4 :
    (FileInfo.new ⟨some "1000", none, none⟩ "u" "w" 4).map
        (fun i => (i.block_offset, i.block_offset_head,
          i.blocks.map (fun b => (b.id, b.start, b.«end»)))) =
      some (250, 0,
        [(0, 0, 0), (1, 1, 250), (2, 251, 500), (3, 501, 750), (4, 751, 1000)]) := by
  decide

/-- C4 counterexample: totalLength 10 with parallelism 1 yields two
blocks, not one. -/
theorem C4_counterexample :
    (FileInfo.new ⟨some "10", none, none⟩ "u" "w" 1).map (fun i => i.blocks.length) =
        some 2 ∧
      (2 : Nat) ≠ 1 := by decide

/-- C4 (amended): for every totalLength >= 1, parallelism = 1 yields
exactly two blocks — the degenerate remainder block [0, 0] and the block
[1, totalLength] — rather than one block spanning the whole resource. -/
theorem C4_single_thread_two_blocks (s : String) (len : Nat) (ct ar : Option String)
    (uri sv : String) (info : FileInfo)
    (hs : parseU64 s = some len) (hlen : 1 ≤ len)
    (hnew : FileInfo.new ⟨some s, ct, ar⟩ uri sv 1 = some info) :
    info.blocks.map (fun b => (b.id, b.start, b.«end»)) = [(0, 0, 0), (1, 1, len)] := by
  have h := Option.some.inj
    ((new_char s len ct ar uri sv 1 hs (by omega) (by omega)).symm.trans hnew)
  subst h
  show (expectedBlocks (len % (len / 1)) (len / 1) (len / (len / 1))).map
    (fun b => (b.id, b.start, b.«end»)) = [(0, 0, 0), (1, 1, len)]
  rw [Nat.div_one, Nat.mod_self, Nat.div_self (by omega : 0 < len)]
  simp [expectedBlocks, List.range_succ, List.range_zero]

/-- C4 witness at totalLength 4: the two blocks are [0, 0] and [1, 4]. -/
theorem C4_witness :
    sampleInfoOne.blocks.map (fun b => (b.id, b.start, b.«end»)) = [(0, 0, 0), (1, 1, 4)] :=
  C4_single_thread_two_blocks "4" 4 none none "u" "w" sampleInfoOne (by decide) (by decide)
    (by decide)

/-- C5 counterexample: totalLength 1000 and parallelism 4 divide evenly,
yet five blocks are produced, not four. -/
theorem C5_counterexample :
    (1000 : Nat) % 4 = 0 ∧
    ((FileInfo.new ⟨some "1000", none, none⟩ "u" "w" 4).map (fun i => i.blocks.length) =
        some 5 ∧
      (5 : Nat) ≠ 4) := by decide

/-- C5 (amended): for every valid input the number of blocks is
totalLength / baseBlockSize + 1; when the partition divides evenly this
is requestedParallelism + 1 — one extra degenerate remainder block — not
requestedParallelism. -/
theorem C5_block_count (s : String) (len : Nat) (ct ar : Option String)
    (uri sv : String) (thread : Nat) (info : FileInfo)
    (hs : parseU64 s = some len) (ht : 0 < thread) (hlt : thread ≤ len)
    (hnew : FileInfo.new ⟨some s, ct, ar⟩ uri sv thread = some info) :
    info.blocks.length = len / (len / thread) + 1 ∧
    (len % thread = 0 → info.blocks.length = thread + 1) := by
  have h := Option.some.inj ((new_char s len ct ar uri sv thread hs ht hlt).symm.trans hnew)
  subst h
  constructor
  · exact expectedBlocks_length _ _ _
  · intro hmod
    have h2 : (expectedBlocks (len % (len / thread)) (len / thread)
        (len / (len / thread))).length = len / (len / thread) + 1 :=
      expectedBlocks_length _ _ _
    have h3 : len / (len / thread) = thread :=
      Nat.div_div_self (Nat.dvd_of_mod_eq_zero hmod) (by omega)
    exact h2.trans (by rw [h3])

/-- C5 witness: totalLength 4 and parallelism 2 divide evenly and give
2 + 1 blocks. -/
theorem C5_witness : sampleInfo.blocks.length = 2 + 1 :=
  (C5_block_count "4" 4 none (some "bytes") "u" "w" 2 sampleInfo (by decide) (by decide)
    (by decide) (by decide)).2 (by decide)

/-- C6 counterexample: totalLength 0 (with parallelism 1) and
parallelism 0 (with totalLength 5) both make FileInfo::new divide by
zero — modelled as none — instead of rejecting with an EmptyResource or
InvalidParallelism error value; no such error values exist in the code. -/
theorem C6_counterexample :
    FileInfo.new ⟨some "0", none, none⟩ "u" "w" 1 = none ∧
    FileInfo.new ⟨some "5", none, none⟩ "u" "w" 0 = none := by decide

/-- C6 (amended): for every input with parallelism = 0 or totalLength =
0, the planner performs an unguarded integer division or modulus by zero
and panics (modelled: FileInfo.new returns none); it produces no
InvalidParallelism or EmptyResource error value. -/
theorem C6_zero_inputs_divide_by_zero (s : String) (ct ar : Option String)
    (uri sv : String) (thread : Nat) (h : thread = 0 ∨ parseU64 s = some 0) :
    FileInfo.new ⟨some s, ct, ar⟩ uri sv thread = none := by
  unfold FileInfo.new
  rcases h with h0 | hs
  · subst h0
    cases hp : parseU64 s <;> simp [hp]
  · simp [hs, Nat.zero_div]

/-- C6 witness: totalLength 0 with parallelism 3 panics (none). -/
theorem C6_witness : FileInfo.new ⟨some "0", some "image/png", none⟩ "q" "r" 3 = none :=
  C6_zero_inputs_divide_by_zero "0" (some "image/png") none "q" "r" 3 (Or.inr (by decide))

/-- C7 counterexample: metadata without a content-length, and metadata
whose content-length is not a u64 integer, both make FileInfo::new panic
on unwrap (modelled as none); no MissingLength or InvalidLength error
value is returned — the function's return type has no error channel. -/
theorem C7_counterexample :
    FileInfo.new ⟨none, none, none⟩ "u" "w" 4 = none ∧
    FileInfo.new ⟨some "abc", none, none⟩ "u" "w" 4 = none := by decide

/-- C7 (amended): for every metadata input lacking a content-length, or
carrying one that does not parse as a non-negative 64-bit integer, plan
construction panics (unwrap on a missing or failed parse, modelled as
none): no blocks are built, but no MissingLength or InvalidLength error
value is produced either. -/
theorem C7_missing_or_invalid_length_panics (h : Headers) (uri sv : String) (thread : Nat)
    (hh : h.contentLength = none ∨
      ∃ v, h.contentLength = some v ∧ parseU64 v = none) :
    FileInfo.new h uri sv thread = none := by
  unfold FileInfo.new
  rcases hh with h0 | ⟨v, hv, hp⟩
  · rw [h0]
  · rw [hv]
    simp [hp]

/-- C7 witness: probe metadata with no content-length field. -/
theorem C7_witness : FileInfo.new ⟨none, some "video/mp4", some "bytes"⟩ "q" "r" 2 = none :=
  C7_missing_or_invalid_length_panics ⟨none, some "video/mp4", some "bytes"⟩ "q" "r" 2
    (Or.inl rfl)

/-- C8 counterexample: the content type audio/ogg is not a key of the
code's lookup (the key is application/ogg), so it maps to the empty
suffix, not to ogg as the claim states. -/
theorem C8_counterexample :
    (fileTypeOf (some "audio/ogg")).toString = "" ∧ ("" : String) ≠ "ogg" := by decide

/-- C8 (amended): the classification is a pure static lookup on the
content-type string: image/jpeg -> jpg, image/png -> png,
application/ogg (not audio/ogg) -> ogg, video/mp4 -> the image kind Png
with suffix png, and every absent or unrecognized content type
(audio/ogg included) -> the empty suffix. -/
theorem C8_content_kind_lookup :
    (fileTypeOf (some "image/jpeg")).toString = "jpg" ∧
    (fileTypeOf (some "image/png")).toString = "png" ∧
    (fileTypeOf (some "application/ogg")).toString = "ogg" ∧
    fileTypeOf (some "video/mp4") = FileType.Png ∧
    (fileTypeOf (some "video/mp4")).toString = "png" ∧
    (fileTypeOf none).toString = "" ∧
    (fileTypeOf (some "audio/ogg")).toString = "" ∧
    ∀ t : String, t ≠ "video/mp4" → t ≠ "application/ogg" → t ≠ "image/jpeg" →
      t ≠ "image/png" → (fileTypeOf (some t)).toString = "" := by
  refine ⟨by decide, by decide, by decide, by decide, by decide, by decide, by decide, ?_⟩
  intro t h1 h2 h3 h4
  simp [fileTypeOf, h1, h2, h3, h4, FileType.toString]

/-- C8 witness: an unrecognized content type gets the empty suffix. -/
theorem C8_witness : (fileTypeOf (some "text/html")).toString = "" :=
  C8_content_kind_lookup.2.2.2.2.2.2.2 "text/html" (by decide) (by decide) (by decide)
    (by decide)

/-- C9 (confirmed): for every valid input the block list is contiguous
and internally disjoint — block 0 starts at offset 0, ids are assigned
0, 1, 2, ... in order, each later block starts right after the previous
block's end — and the final block's end equals totalLength itself (not
totalLength - 1), so the inclusive ranges span the totalLength + 1
positions [0, totalLength]. -/
theorem C9_contiguous_last_ends_at_totalLength (s : String) (len : Nat)
    (ct ar : Option String) (uri sv : String) (thread : Nat) (info : FileInfo)
    (hs : parseU64 s = some len) (ht : 0 < thread) (hlt : thread ≤ len)
    (hnew : FileInfo.new ⟨some s, ct, ar⟩ uri sv thread = some info) :
    (∀ h0 : 0 < info.blocks.length, (info.blocks.get ⟨0, h0⟩).start = 0) ∧
    (∀ (i : Nat) (hi : i < info.blocks.length), (info.blocks.get ⟨i, hi⟩).id = i) ∧
    (∀ (i : Nat) (hi : i + 1 < info.blocks.length),
      (info.blocks.get ⟨i + 1, hi⟩).start =
        (info.blocks.get ⟨i, Nat.lt_of_succ_lt hi⟩).«end» + 1) ∧
    (∀ hne : info.blocks ≠ [], (info.blocks.getLast hne).«end» = len) := by
  have h := Option.some.inj ((new_char s len ct ar uri sv thread hs ht hlt).symm.trans hnew)
  subst h
  refine ⟨fun h0 => (expectedBlocks_head_fields _ _ _ h0).1,
    fun i hi => expectedBlocks_id _ _ _ i hi,
    fun i hi => expectedBlocks_contig _ _ _ i hi,
    fun hne => ?_⟩
  have hlast := expectedBlocks_getLast (len % (len / thread)) (len / thread)
    (len / (len / thread)) hne
  rw [Nat.mod_add_div'] at hlast
  exact hlast

/-- C9 witness: the last block of the concrete plan for totalLength 4,
parallelism 2 ends at byte 4. -/
theorem C9_witness : (sampleInfo.blocks.getLast (by decide)).«end» = 4 :=
  (C9_contiguous_last_ends_at_totalLength "4" 4 none (some "bytes") "u" "w" 2 sampleInfo
    (by decide) (by decide) (by decide) (by decide)).2.2.2 (by decide)

/-- C10 (confirmed): whenever FileInfo::new returns a plan, its
flag_range field is true exactly when the metadata carries an
accept-ranges header whose value is the string bytes; an absent header
gives false. -/
theorem C10_flag_range_iff (hd : Headers) (uri sv : String) (thread : Nat)
    (info : FileInfo) (hnew : FileInfo.new hd uri sv thread = some info) :
    (info.flag_range = true ↔ hd.acceptRanges = some "bytes") ∧
    (hd.acceptRanges = none → info.flag_range = false) := by
  obtain ⟨cl, ct, ar⟩ := hd
  unfold FileInfo.new at hnew
  simp only [] at hnew
  split at hnew
  · exact absurd hnew (by simp)
  · split at hnew
    · exact absurd hnew (by simp)
    · split at hnew
      · exact absurd hnew (by simp)
      · split at hnew
        · exact absurd hnew (by simp)
        · have h2 := Option.some.inj hnew
          subst h2
          cases ar <;> simp

/-- C10 witness: the concrete plan built with accept-ranges bytes has
the flag set. -/
theorem C10_witness :
    sampleInfo.flag_range = true ↔
      (Headers.mk (some "4") none (some "bytes")).acceptRanges = some "bytes" :=
  (C10_flag_range_iff ⟨some "4", none, some "bytes"⟩ "u" "w" 2 sampleInfo (by decide)).1
